import Mathlib

/-!
Verification development for the web-poet HTTP page-input model
(`web_poet/page_inputs/http.py`): URL values, response bodies, header
containers, and the response encoding-resolution cascade.

Python string/bytes values are embedded as `String` / `List Nat` (one
`Nat` per byte); fallible operations return `Option`/`Except`; the two
mutable caches on `HttpResponse` (`_cached_text` and the memoized
`_body_inferred_encoding`, plus the memoized `json()`) are embedded as
explicit state passing over a `RespState` record.

External collaborators that the source calls but whose code is not part
of the repository sources (the `w3lib.encoding` helpers, `yarl.URL`
component access, `multidict.CIMultiDict` lookup, `json.loads`) are
modelled from the specification; each such definition carries a doc
comment saying so.
-/

namespace WebPoet

/-- Lowercase a list of characters. -/
def lowerChars (cs : List Char) : List Char := cs.map Char.toLower

/-- Lowercase a string. -/
def lowerStr (s : String) : String := String.mk (lowerChars s.data)

/-- Modelled from the spec: label normalization preceding the alias
table (the charset-name canonicalization used by the resolver):
lowercase and collapse separator characters to underscore. -/
def normalizeLabel (s : String) : String :=
  String.mk (s.data.map (fun c =>
    if c = '-' || c = ' ' || c = '.' then '_' else c.toLower))

/-- Modelled from the spec: the normalization/alias table of the
encoding resolver, as pairs of a normalized label and the canonical
name of the codec actually used (legacy simplified-Chinese labels map
to their superset codec `gb18030`; Western single-byte labels --
including plain `ascii` -- map to the vendor-extended superset
`cp1252`). -/
def resolveTable : List (String × String) :=
  [ ("ascii", "cp1252"), ("646", "cp1252"), ("us_ascii", "cp1252"),
    ("ansi_x3_4_1968", "cp1252"),
    ("latin_1", "cp1252"), ("latin1", "cp1252"), ("latin", "cp1252"),
    ("l1", "cp1252"), ("iso_8859_1", "cp1252"), ("iso8859_1", "cp1252"),
    ("iso8859", "cp1252"), ("8859", "cp1252"), ("cp819", "cp1252"),
    ("cp1252", "cp1252"), ("windows_1252", "cp1252"), ("1252", "cp1252"),
    ("utf_8", "utf-8"), ("utf8", "utf-8"), ("u8", "utf-8"), ("utf", "utf-8"),
    ("utf_16", "utf-16"), ("utf16", "utf-16"), ("u16", "utf-16"),
    ("utf_16_le", "utf-16-le"), ("utf_16le", "utf-16-le"),
    ("utf_16_be", "utf-16-be"), ("utf_16be", "utf-16-be"),
    ("utf_32", "utf-32"), ("utf32", "utf-32"), ("u32", "utf-32"),
    ("utf_32_le", "utf-32-le"), ("utf_32le", "utf-32-le"),
    ("utf_32_be", "utf-32-be"), ("utf_32be", "utf-32-be"),
    ("gb2312", "gb18030"), ("gb_2312_80", "gb18030"), ("gbk", "gb18030"),
    ("936", "gb18030"), ("cp936", "gb18030"), ("ms936", "gb18030"),
    ("zh_cn", "gb18030"), ("gb18030", "gb18030"), ("euc_cn", "gb18030"),
    ("euccn", "gb18030"), ("eucgb2312_cn", "gb18030") ]

/-- Modelled from the spec: resolve a charset label through the
normalization/alias table; an unrecognized label resolves to
`none`. -/
def resolveEncoding (label : String) : Option String :=
  match resolveTable.find? (fun kv => kv.1 = normalizeLabel label) with
  | some kv => some kv.2
  | none => none

/-- Is this character matched by the `[\w-]` class of the charset
token pattern? -/
def isTokenChar (c : Char) : Bool :=
  c.isAlphanum || c = '_' || c = '-'

/-- Modelled from the spec: scan a (lowercased) character list for a
`charset=` parameter and return the following `[\w-]+` token; a
position where `charset=` is followed by no token character does not
match, and scanning continues. -/
def scanCharset : List Char → Option (List Char)
  | [] => none
  | c :: rest =>
    if List.isPrefixOf "charset=".data (c :: rest) then
      let tok := (List.drop 8 (c :: rest)).takeWhile isTokenChar
      if tok.isEmpty then scanCharset rest else some tok
    else scanCharset rest

/-- Modelled from the spec: extract the charset declared in a
Content-Type value (`charset=` parameter, case-insensitive) and pass
it through the normalization/alias table; `none` when absent or when
the label is unrecognized. -/
def httpContentTypeEncoding (contentType : String) : Option String :=
  match scanCharset (lowerChars contentType.data) with
  | some tok => resolveEncoding (String.mk tok)
  | none => none

/-! ## URL values (`_Url`, §4.1) -/

/-- Drop characters up to and including the end of the authority part:
given the characters following `"://"`, skip the host portion (up to
the first `/`, `?` or `#`). -/
def dropAuthority : List Char → List Char
  | [] => []
  | c :: rest =>
    if c = '/' || c = '?' || c = '#' then c :: rest
    else dropAuthority rest

/-- Find the characters following the first `"://"` occurrence, if any. -/
def afterSchemeSep : List Char → Option (List Char)
  | [] => none
  | c :: rest =>
    if List.isPrefixOf "://".data (c :: rest) then
      some (List.drop 3 (c :: rest))
    else afterSchemeSep rest

/-- Modelled from the spec: the `path` component of a URL string as the
underlying URL value exposes it (the part between the authority and any
query/fragment); for an absolute URL an empty path is exposed as
`"/"`. -/
def urlPath (s : String) : String :=
  match afterSchemeSep s.data with
  | some rest =>
    let p := (dropAuthority rest).takeWhile (fun c => c ≠ '?' && c ≠ '#')
    if p.isEmpty then "/" else String.mk p
  | none =>
    String.mk (s.data.takeWhile (fun c => c ≠ '?' && c ≠ '#'))

/-- `_Url.__eq__`: when the left URL's path is `"/"`, compare paths
first (wrapping a plain-string right operand into a URL value) and
return `True` on a match; otherwise compare the normalized string
forms.  Both operands are represented by their normalized string form,
which the wrapper preserves. -/
def urlEq (a b : String) : Bool :=
  if urlPath a = "/" then
    if urlPath a = urlPath b then true else a = b
  else a = b

/-! ## Byte-level decoders (`w3lib.encoding`, §4.3 decoding discipline) -/

/-- The Unicode replacement character. -/
def repl : Char := Char.ofNat 0xFFFD

/-- Is `b` a UTF-8 continuation byte? -/
def isCont (b : Nat) : Bool := 0x80 ≤ b && b ≤ 0xBF

/-- Decoder state of the byte-by-byte UTF-8 automaton: either between
characters, or inside a multi-byte sequence with the lead byte, the
accumulated code-point bits, the number of continuation bytes still
expected, and whether the next continuation is the first one (whose
admissible range depends on the lead byte). -/
inductive Utf8State where
  | start : Utf8State
  | pend (lead : Nat) (acc : Nat) (remaining : Nat) (first : Bool) : Utf8State

/-- Admissible range of a continuation byte after `lead` (the first
continuation is restricted for `0xE0`/`0xED`/`0xF0`/`0xF4` to exclude
overlong forms, surrogates and out-of-range code points). -/
def utf8ContOk (lead : Nat) (first : Bool) (b : Nat) : Bool :=
  if first then
    if lead = 0xE0 then 0xA0 ≤ b && b ≤ 0xBF
    else if lead = 0xED then 0x80 ≤ b && b ≤ 0x9F
    else if lead = 0xF0 then 0x90 ≤ b && b ≤ 0xBF
    else if lead = 0xF4 then 0x80 ≤ b && b ≤ 0x8F
    else isCont b
  else isCont b

/-- Classify a byte seen between characters: ASCII emits itself, a
valid lead byte opens a multi-byte sequence, anything else (a stray
continuation byte or an invalid lead) emits one replacement
character. -/
def utf8Classify (b : Nat) : List Char × Utf8State :=
  if b < 0x80 then ([Char.ofNat b], .start)
  else if 0xC2 ≤ b ∧ b ≤ 0xDF then ([], .pend b (b - 0xC0) 1 true)
  else if 0xE0 ≤ b ∧ b ≤ 0xEF then ([], .pend b (b - 0xE0) 2 true)
  else if 0xF0 ≤ b ∧ b ≤ 0xF4 then ([], .pend b (b - 0xF0) 3 true)
  else ([repl], .start)

/-- One byte of replacement-mode UTF-8 decoding: an invalid
continuation byte closes the maximal invalid subpart with a single
replacement character and is then reprocessed as a fresh lead. -/
def utf8Step (s : Utf8State) (b : Nat) : List Char × Utf8State :=
  match s with
  | .start => utf8Classify b
  | .pend lead acc remaining first =>
    if utf8ContOk lead first b then
      let acc2 := acc * 64 + (b - 0x80)
      if remaining = 1 then ([Char.ofNat acc2], .start)
      else ([], .pend lead acc2 (remaining - 1) false)
    else
      let p := utf8Classify b
      (repl :: p.1, p.2)

/-- End of input: a truncated multi-byte sequence is one maximal
invalid subpart, replaced by a single replacement character. -/
def utf8Finish : Utf8State → List Char
  | .start => []
  | .pend _ _ _ _ => [repl]

/-- Run the replacement-mode UTF-8 automaton over a byte list. -/
def utf8Run : Utf8State → List Nat → List Char
  | s, [] => utf8Finish s
  | s, b :: rest =>
    let p := utf8Step s b
    p.1 ++ utf8Run p.2 rest

/-- Modelled from the spec: UTF-8 decoding with replacement-character
substitution — each maximal invalid subpart is replaced by one
replacement character and decoding continues, so that decoding always
succeeds and surrounding valid text is preserved. -/
def utf8DecodeReplace (body : List Nat) : List Char :=
  utf8Run .start body

/-- One byte of strict UTF-8 validation (`none` = decode error). -/
def utf8ValidStep (s : Utf8State) (b : Nat) : Option Utf8State :=
  match s with
  | .start =>
    if b < 0x80 then some .start
    else if 0xC2 ≤ b ∧ b ≤ 0xDF then some (.pend b 0 1 true)
    else if 0xE0 ≤ b ∧ b ≤ 0xEF then some (.pend b 0 2 true)
    else if 0xF0 ≤ b ∧ b ≤ 0xF4 then some (.pend b 0 3 true)
    else none
  | .pend lead _ remaining first =>
    if utf8ContOk lead first b then
      if remaining = 1 then some .start
      else some (.pend lead 0 (remaining - 1) false)
    else none

/-- Run strict validation over a byte list. -/
def utf8ValidRun : Utf8State → List Nat → Bool
  | s, [] => match s with | .start => true | .pend _ _ _ _ => false
  | s, b :: rest =>
    match utf8ValidStep s b with
    | some s2 => utf8ValidRun s2 rest
    | none => false

/-- Strict UTF-8 validity: exactly the byte lists a strict decode
accepts without error. -/
def validUtf8 (body : List Nat) : Bool :=
  utf8ValidRun .start body

/-- ASCII decoding with replacement: bytes below `0x80` map to
themselves, anything else to the replacement character. -/
def asciiDecodeReplace (body : List Nat) : List Char :=
  body.map (fun b => if b < 0x80 then Char.ofNat b else repl)

/-- Code points of the cp1252 `0x80`–`0x9F` range; the five unassigned
bytes map to the replacement character. -/
def cp1252Hi (b : Nat) : Nat :=
  if b = 0x80 then 0x20AC else if b = 0x82 then 0x201A
  else if b = 0x83 then 0x0192 else if b = 0x84 then 0x201E
  else if b = 0x85 then 0x2026 else if b = 0x86 then 0x2020
  else if b = 0x87 then 0x2021 else if b = 0x88 then 0x02C6
  else if b = 0x89 then 0x2030 else if b = 0x8A then 0x0160
  else if b = 0x8B then 0x2039 else if b = 0x8C then 0x0152
  else if b = 0x8E then 0x017D else if b = 0x91 then 0x2018
  else if b = 0x92 then 0x2019 else if b = 0x93 then 0x201C
  else if b = 0x94 then 0x201D else if b = 0x95 then 0x2022
  else if b = 0x96 then 0x2013 else if b = 0x97 then 0x2014
  else if b = 0x98 then 0x02DC else if b = 0x99 then 0x2122
  else if b = 0x9A then 0x0161 else if b = 0x9B then 0x203A
  else if b = 0x9C then 0x0153 else if b = 0x9E then 0x017E
  else if b = 0x9F then 0x0178 else 0xFFFD

/-- Is byte `b` assigned in cp1252 (a strict decode succeeds on it)? -/
def cp1252Defined (b : Nat) : Bool :=
  b ≤ 0xFF && !(b = 0x81 || b = 0x8D || b = 0x8F || b = 0x90 || b = 0x9D)

/-- cp1252 decoding with replacement. -/
def cp1252DecodeReplace (body : List Nat) : List Char :=
  body.map (fun b =>
    if b < 0x80 then Char.ofNat b
    else if b < 0xA0 then Char.ofNat (cp1252Hi b)
    else if b ≤ 0xFF then Char.ofNat b
    else repl)

/-- Handle one 16-bit unit `u` given an optionally pending high
surrogate: a matching low surrogate completes a pair, anything else
after a pending high surrogate first replaces that surrogate. -/
def utf16HandleUnit (u : Nat) (hi : Option Nat) : List Char × Option Nat :=
  match hi with
  | some h =>
    if 0xDC00 ≤ u && u ≤ 0xDFFF then
      ([Char.ofNat (0x10000 + (h - 0xD800) * 1024 + (u - 0xDC00))], none)
    else if 0xD800 ≤ u && u ≤ 0xDBFF then ([repl], some u)
    else ([repl, Char.ofNat u], none)
  | none =>
    if 0xD800 ≤ u && u ≤ 0xDBFF then ([], some u)
    else if 0xDC00 ≤ u && u ≤ 0xDFFF then ([repl], none)
    else ([Char.ofNat u], none)

/-- Run UTF-16 decoding byte-by-byte: `buf` buffers the first byte of
a 16-bit unit, `hi` a pending high surrogate; at end of input each is
replaced. -/
def utf16Run (be : Bool) : Option Nat → Option Nat → List Nat → List Char
  | hi, buf, [] =>
    (match hi with | some _ => [repl] | none => [])
      ++ (match buf with | some _ => [repl] | none => [])
  | hi, none, b :: rest => utf16Run be hi (some b) rest
  | hi, some b0, b :: rest =>
    let u := if be then b0 * 256 + b else b * 256 + b0
    let p := utf16HandleUnit u hi
    p.1 ++ utf16Run be p.2 none rest

/-- UTF-16 decoding with replacement (`be` selects big-endian byte
order); surrogate pairs are combined, a lone or mismatched surrogate
and a trailing odd byte are replaced. -/
def utf16DecodeReplace (be : Bool) (body : List Nat) : List Char :=
  utf16Run be none none body

/-- Modelled from the spec: decode `body` under the canonical encoding
label `enc`, replacing invalid byte sequences with the replacement
character (never failing).  The codecs exercised by this development
are implemented byte-exactly; any other label (e.g. the East-Asian
superset codec, whose byte structure the spec does not describe) falls
back to the ASCII-compatible replacement decoder. -/
def decodeReplace (enc : String) (body : List Nat) : String :=
  let n := normalizeLabel enc
  if n = "utf_8" || n = "utf8" then String.mk (utf8DecodeReplace body)
  else if n = "ascii" then String.mk (asciiDecodeReplace body)
  else if n = "cp1252" || n = "latin_1" || n = "latin1" then
    String.mk (cp1252DecodeReplace body)
  else if n = "utf_16_le" then String.mk (utf16DecodeReplace false body)
  else if n = "utf_16_be" then String.mk (utf16DecodeReplace true body)
  else String.mk (asciiDecodeReplace body)

/-! ## Body-declared encoding, BOM, and `html_to_unicode` -/

/-- Skip one optional quote character (double or single). -/
def skipQuote (cs : List Char) : List Char :=
  match cs with
  | c :: rest => if c = Char.ofNat 34 || c = Char.ofNat 39 then rest else cs
  | [] => []

/-- Scan a (lowercased) character list for an embedded charset
declaration: a `charset=` (HTML meta) or `encoding=` (XML declaration)
parameter, with an optional quote before the `[\w-]+` token. -/
def scanBodyDecl : List Char → Option (List Char)
  | [] => none
  | c :: rest =>
    if List.isPrefixOf "charset=".data (c :: rest) then
      let tok := (skipQuote (List.drop 8 (c :: rest))).takeWhile isTokenChar
      if tok.isEmpty then scanBodyDecl rest else some tok
    else if List.isPrefixOf "encoding=".data (c :: rest) then
      let tok := (skipQuote (List.drop 9 (c :: rest))).takeWhile isTokenChar
      if tok.isEmpty then scanBodyDecl rest else some tok
    else scanBodyDecl rest

/-- Modelled from the spec: scan the first bytes of the body (scoped
to a 4096-byte prefix, no full parsing) for an embedded charset
declaration — an HTML meta tag or XML declaration — and pass the label
through the normalization/alias table; `none` when absent or
unrecognized. -/
def htmlBodyDeclaredEncoding (body : List Nat) : Option String :=
  match scanBodyDecl (lowerChars ((body.take 4096).map Char.ofNat)) with
  | some tok => resolveEncoding (String.mk tok)
  | none => none

/-- Modelled from the spec: byte-order-mark detection — returns the
encoding named by a leading BOM together with the BOM length (wider
marks checked first). -/
def readBom (body : List Nat) : Option (String × Nat) :=
  if List.isPrefixOf [0x00, 0x00, 0xFE, 0xFF] body then some ("utf-32-be", 4)
  else if List.isPrefixOf [0xFF, 0xFE, 0x00, 0x00] body then some ("utf-32-le", 4)
  else if List.isPrefixOf [0xFE, 0xFF] body then some ("utf-16-be", 2)
  else if List.isPrefixOf [0xFF, 0xFE] body then some ("utf-16-le", 2)
  else if List.isPrefixOf [0xEF, 0xBB, 0xBF] body then some ("utf-8", 3)
  else none

/-- Modelled from the spec: resolve an encoding for an HTML body and
decode it, returning `(encoding, text)`.  Precedence inside this
helper: the Content-Type header charset (with BOM reconciliation for
the UTF families, stripping a BOM that agrees with the resolved
multi-byte encoding); otherwise a body-declared charset; otherwise a
BOM; otherwise the `autoDetect` trial-decoding hook; otherwise
`defaultEncoding`.  Decoding always uses replacement-character
substitution. -/
def htmlToUnicode (contentTypeHeader : String) (body : List Nat)
    (autoDetect : Option (List Nat → Option String))
    (defaultEncoding : String) : String × String :=
  match httpContentTypeEncoding contentTypeHeader with
  | some enc =>
    if enc = "utf-16" || enc = "utf-32" then
      match readBom body with
      | some (bomEnc, bomLen) =>
        if List.isPrefixOf enc.data bomEnc.data then
          (bomEnc, decodeReplace bomEnc (body.drop bomLen))
        else (enc ++ "-be", decodeReplace (enc ++ "-be") body)
      | none => (enc ++ "-be", decodeReplace (enc ++ "-be") body)
    else if enc = "utf-8" then
      if List.isPrefixOf [0xEF, 0xBB, 0xBF] body then
        (enc, decodeReplace enc (body.drop 3))
      else (enc, decodeReplace enc body)
    else (enc, decodeReplace enc body)
  | none =>
    match htmlBodyDeclaredEncoding body with
    | some enc => (enc, decodeReplace enc body)
    | none =>
      match readBom body with
      | some (bomEnc, bomLen) =>
        (bomEnc, decodeReplace bomEnc (body.drop bomLen))
      | none =>
        let enc :=
          match autoDetect with
          | some f => (f body).getD defaultEncoding
          | none => defaultEncoding
        (enc, decodeReplace enc body)

/-! ## Header container (`_HttpHeaders` on `multidict.CIMultiDict`) -/

/-- Modelled from the spec: case-insensitive first-value lookup of the
ordered multi-valued header mapping (`CIMultiDict.get`). -/
def headersGet (hs : List (String × String)) (name : String) : Option String :=
  match hs.find? (fun kv => lowerStr kv.1 = lowerStr name) with
  | some kv => some kv.2
  | none => none

/-- `HttpResponseHeaders.declared_encoding`: charset from the
Content-Type header value, if any. -/
def headersDeclaredEncoding (hs : List (String × String)) : Option String :=
  httpContentTypeEncoding ((headersGet hs "Content-Type").getD "")

/-! ## JSON deserialization (`json.loads`) -/

/-- A JSON value (numbers modelled by their integral fragment, the
only kind the claims exercise). -/
inductive JVal where
  | jnull : JVal
  | jbool (b : Bool) : JVal
  | jnum (n : Int) : JVal
  | jstr (s : String) : JVal
  | jarr (xs : List JVal) : JVal
  | jobj (fields : List (String × JVal)) : JVal

/-- A JSON decode error: a message and the character position it
refers to. -/
structure JsonError where
  msg : String
  pos : Nat
deriving DecidableEq

/-- Skip whitespace, tracking the character position. -/
def skipWs : List Char → Nat → List Char × Nat
  | [], pos => ([], pos)
  | c :: rest, pos =>
    if c = ' ' || c = Char.ofNat 9 || c = Char.ofNat 10 || c = Char.ofNat 13 then
      skipWs rest (pos + 1)
    else (c :: rest, pos)

/-- Decimal digit test and value. -/
def isDigitCh (c : Char) : Bool := '0' ≤ c && c ≤ '9'

/-- Accumulate a digit run into a natural number. -/
def digitsToNat (acc : Nat) : List Char → Nat
  | [] => acc
  | c :: rest =>
    digitsToNat (acc * 10 + (c.toNat - '0'.toNat)) rest

/-- Value of one hex digit (0 for non-hex input, which the caller
rejects). -/
def hexVal (c : Char) : Nat :=
  if '0' ≤ c && c ≤ '9' then c.toNat - '0'.toNat
  else if 'a' ≤ c && c ≤ 'f' then c.toNat - 'a'.toNat + 10
  else if 'A' ≤ c && c ≤ 'F' then c.toNat - 'A'.toNat + 10
  else 0

/-- Is `c` a hex digit? -/
def isHexCh (c : Char) : Bool :=
  ('0' ≤ c && c ≤ '9') || ('a' ≤ c && c ≤ 'f') || ('A' ≤ c && c ≤ 'F')

/-- Parse the remainder of a string literal (opening quote already
consumed), handling the JSON escapes. -/
def parseStringLit (startPos : Nat) :
    List Char → Nat → List Char → Except JsonError (String × List Char × Nat)
  | _, _, [] => .error ⟨"Unterminated string starting at", startPos⟩
  | acc, pos, c :: rest =>
    if c = Char.ofNat 34 then .ok (String.mk acc.reverse, rest, pos + 1)
    else if c = Char.ofNat 92 then
      match rest with
      | [] => .error ⟨"Unterminated string starting at", startPos⟩
      | e :: rest2 =>
        if e = Char.ofNat 34 || e = Char.ofNat 92 || e = '/' then
          parseStringLit startPos (e :: acc) (pos + 2) rest2
        else if e = 'b' then parseStringLit startPos (Char.ofNat 8 :: acc) (pos + 2) rest2
        else if e = 'f' then parseStringLit startPos (Char.ofNat 12 :: acc) (pos + 2) rest2
        else if e = 'n' then parseStringLit startPos (Char.ofNat 10 :: acc) (pos + 2) rest2
        else if e = 'r' then parseStringLit startPos (Char.ofNat 13 :: acc) (pos + 2) rest2
        else if e = 't' then parseStringLit startPos (Char.ofNat 9 :: acc) (pos + 2) rest2
        else if e = 'u' then
          match rest2 with
          | h1 :: h2 :: h3 :: h4 :: rest3 =>
            if isHexCh h1 && isHexCh h2 && isHexCh h3 && isHexCh h4 then
              let n := ((hexVal h1 * 16 + hexVal h2) * 16 + hexVal h3) * 16 + hexVal h4
              parseStringLit startPos (Char.ofNat n :: acc) (pos + 6) rest3
            else .error ⟨"Invalid \\uXXXX escape", pos + 1⟩
          | _ => .error ⟨"Invalid \\uXXXX escape", pos + 1⟩
        else .error ⟨"Invalid \\escape", pos⟩
    else parseStringLit startPos (c :: acc) (pos + 1) rest

mutual

/-- Parse one JSON value (fuel-indexed). -/
def parseValue : Nat → List Char → Nat → Except JsonError (JVal × List Char × Nat)
  | 0, _, pos => .error ⟨"Expecting value", pos⟩
  | fuel + 1, cs, pos =>
    let w := skipWs cs pos
    match w.1 with
    | [] => .error ⟨"Expecting value", w.2⟩
    | c :: rest =>
      if c = Char.ofNat 0x7b then
        let w2 := skipWs rest (w.2 + 1)
        match w2.1 with
        | d :: rest2 =>
          if d = Char.ofNat 0x7d then .ok (.jobj [], rest2, w2.2 + 1)
          else parseMembers fuel [] w2.1 w2.2
        | [] => .error ⟨"Expecting property name enclosed in double quotes", w2.2⟩
      else if c = '[' then
        let w2 := skipWs rest (w.2 + 1)
        match w2.1 with
        | d :: rest2 =>
          if d = ']' then .ok (.jarr [], rest2, w2.2 + 1)
          else parseElements fuel [] w2.1 w2.2
        | [] => .error ⟨"Expecting value", w2.2⟩
      else if c = Char.ofNat 34 then
        match parseStringLit w.2 [] (w.2 + 1) rest with
        | .ok (s, rest2, pos2) => .ok (.jstr s, rest2, pos2)
        | .error e => .error e
      else if List.isPrefixOf "true".data (c :: rest) then
        .ok (.jbool true, List.drop 4 (c :: rest), w.2 + 4)
      else if List.isPrefixOf "false".data (c :: rest) then
        .ok (.jbool false, List.drop 5 (c :: rest), w.2 + 5)
      else if List.isPrefixOf "null".data (c :: rest) then
        .ok (.jnull, List.drop 4 (c :: rest), w.2 + 4)
      else if c = '-' then
        let digits := rest.takeWhile isDigitCh
        if digits.isEmpty then .error ⟨"Expecting value", w.2⟩
        else .ok (.jnum (-(digitsToNat 0 digits : Int)),
          rest.dropWhile isDigitCh, w.2 + 1 + digits.length)
      else if isDigitCh c then
        let digits := (c :: rest).takeWhile isDigitCh
        .ok (.jnum (digitsToNat 0 digits : Int),
          (c :: rest).dropWhile isDigitCh, w.2 + digits.length)
      else .error ⟨"Expecting value", w.2⟩

/-- Parse the members of an object after `{` (fuel-indexed). -/
def parseMembers (fuel : Nat) (acc : List (String × JVal)) :
    List Char → Nat → Except JsonError (JVal × List Char × Nat) :=
  fun cs pos =>
    match fuel with
    | 0 => .error ⟨"Expecting property name enclosed in double quotes", pos⟩
    | fuel + 1 =>
      let w := skipWs cs pos
      match w.1 with
      | c :: rest =>
        if c = Char.ofNat 34 then
          match parseStringLit w.2 [] (w.2 + 1) rest with
          | .error e => .error e
          | .ok (key, rest2, pos2) =>
            let w2 := skipWs rest2 pos2
            match w2.1 with
            | d :: rest3 =>
              if d = ':' then
                match parseValue fuel rest3 (w2.2 + 1) with
                | .error e => .error e
                | .ok (v, rest4, pos4) =>
                  let w3 := skipWs rest4 pos4
                  match w3.1 with
                  | e2 :: rest5 =>
                    if e2 = Char.ofNat 0x7d then
                      .ok (.jobj ((acc ++ [(key, v)])), rest5, w3.2 + 1)
                    else if e2 = ',' then
                      parseMembers fuel (acc ++ [(key, v)]) rest5 (w3.2 + 1)
                    else .error ⟨"Expecting , delimiter", w3.2⟩
                  | [] => .error ⟨"Expecting , delimiter", w3.2⟩
              else .error ⟨"Expecting : delimiter", w2.2⟩
            | [] => .error ⟨"Expecting : delimiter", w2.2⟩
        else .error ⟨"Expecting property name enclosed in double quotes", w.2⟩
      | [] => .error ⟨"Expecting property name enclosed in double quotes", w.2⟩

/-- Parse the elements of an array after `[` (fuel-indexed). -/
def parseElements (fuel : Nat) (acc : List JVal) :
    List Char → Nat → Except JsonError (JVal × List Char × Nat) :=
  fun cs pos =>
    match fuel with
    | 0 => .error ⟨"Expecting value", pos⟩
    | fuel + 1 =>
      match parseValue fuel cs pos with
      | .error e => .error e
      | .ok (v, rest, pos2) =>
        let w := skipWs rest pos2
        match w.1 with
        | d :: rest2 =>
          if d = ']' then .ok (.jarr (acc ++ [v]), rest2, w.2 + 1)
          else if d = ',' then parseElements fuel (acc ++ [v]) rest2 (w.2 + 1)
          else .error ⟨"Expecting , delimiter", w.2⟩
        | [] => .error ⟨"Expecting , delimiter", w.2⟩

end

/-- Modelled from the spec: `json.loads` on body bytes — deserialize
a JSON document, propagating a decode error carrying position
information on malformed input. -/
def jsonLoads (body : List Nat) : Except JsonError JVal :=
  if validUtf8 body then
    let cs := utf8DecodeReplace body
    match parseValue (cs.length + 2) cs 0 with
    | .error e => .error e
    | .ok (v, rest, pos) =>
      let w := skipWs rest pos
      match w.1 with
      | [] => .ok v
      | _ :: _ => .error ⟨"Extra data", w.2⟩
  else .error ⟨"Invalid UTF-8 in JSON input", 0⟩

/-! ## `HttpResponseHeaders.from_bytes_dict` -/

/-- A loosely-typed Python value appearing as a key or value of the
`from_bytes_dict` argument: bytes, text, `None`, or any other value
(embedded by the name of its Python type, which is all `_norm` uses
of it). -/
inductive RawVal where
  | bstr (bs : List Nat) : RawVal
  | tstr (s : String) : RawVal
  | nul : RawVal
  | other (pyType : String) : RawVal
deriving DecidableEq

/-- A `from_bytes_dict` mapping value: a single value or a list/tuple
of values. -/
inductive RawTop where
  | single (v : RawVal) : RawTop
  | multi (vs : List RawVal) : RawTop
deriving DecidableEq

/-- An exception escaping `from_bytes_dict`: the `ValueError` raised
by `_norm` for an unsupported type (carrying that type's name), or a
decode error from `bytes.decode`. -/
inductive NormError where
  | expectingStrOrBytes (received : String) : NormError
  | decodeError : NormError
deriving DecidableEq

/-- Strict `bytes.decode(encoding)` for the codecs this development
implements; a label outside them is reported as a decode failure. -/
def decodeBytesStrict (enc : String) (bs : List Nat) : Except NormError String :=
  let n := normalizeLabel enc
  if n = "utf_8" || n = "utf8" then
    if validUtf8 bs then .ok (String.mk (utf8DecodeReplace bs))
    else .error .decodeError
  else if n = "ascii" then
    if bs.all (fun b => b < 0x80) then .ok (String.mk (bs.map Char.ofNat))
    else .error .decodeError
  else if n = "cp1252" then
    if bs.all cp1252Defined then .ok (String.mk (cp1252DecodeReplace bs))
    else .error .decodeError
  else if n = "latin_1" || n = "latin1" || n = "iso_8859_1" then
    if bs.all (fun b => b ≤ 0xFF) then .ok (String.mk (bs.map Char.ofNat))
    else .error .decodeError
  else .error .decodeError

/-- `_norm` inside `from_bytes_dict`: text and `None` pass through
unchanged, bytes are decoded with `encoding`, anything else raises a
`ValueError` identifying the received type. -/
def normVal (enc : String) : RawVal → Except NormError (Option String)
  | .tstr s => .ok (some s)
  | .nul => .ok none
  | .bstr bs =>
    match decodeBytesStrict enc bs with
    | .ok s => .ok (some s)
    | .error e => .error e
  | .other t => .error (.expectingStrOrBytes t)

/-- The list-comprehension branch of `from_bytes_dict`: normalize the
key once per element, paired with each normalized element, in order. -/
def normMulti (enc : String) (k : RawVal) :
    List RawVal → Except NormError (List (Option String × Option String))
  | [] => .ok []
  | v :: vs =>
    match normVal enc k with
    | .error e => .error e
    | .ok nk =>
      match normVal enc v with
      | .error e => .error e
      | .ok nv =>
        match normMulti enc k vs with
        | .error e => .error e
        | .ok tail => .ok ((nk, nv) :: tail)

/-- `HttpResponseHeaders.from_bytes_dict`: convert each entry of the
mapping — a list/tuple value becomes one converted pair per element
under the same key, preserving order — and return the converted pair
list (from which the container is constructed); the first `_norm`
failure escapes as the error. -/
def fromBytesDict :
    List (RawVal × RawTop) → String →
    Except NormError (List (Option String × Option String))
  | [], _ => .ok []
  | (k, .single v) :: rest, enc =>
    match normVal enc k with
    | .error e => .error e
    | .ok nk =>
      match normVal enc v with
      | .error e => .error e
      | .ok nv =>
        match fromBytesDict rest enc with
        | .error e => .error e
        | .ok tail => .ok ((nk, nv) :: tail)
  | (k, .multi vs) :: rest, enc =>
    match normMulti enc k vs with
    | .error e => .error e
    | .ok pairs =>
      match fromBytesDict rest enc with
      | .error e => .error e
      | .ok tail => .ok (pairs ++ tail)

/-- Case-insensitive first-value lookup on converted pairs (the
container built from `from_bytes_dict` output behaves like
`headersGet` on its entries). -/
def pairsGet (ps : List (Option String × Option String)) (name : String) :
    Option (Option String) :=
  match ps.find? (fun kv =>
      match kv.1 with
      | some k => lowerStr k = lowerStr name
      | none => false) with
  | some kv => some kv.2
  | none => none

/-! ## `HttpResponse` and the encoding cascade -/

/-- `HttpResponse`: url, raw body bytes, optional status, headers, and
the optional explicit encoding (`_encoding`). -/
structure HttpResponse where
  url : String
  body : List Nat
  status : Option Int := none
  headers : List (String × String) := []
  encodingArg : Option String := none

/-- `HttpResponse._DEFAULT_ENCODING`. -/
def DEFAULT_ENCODING : String := "ascii"

/-- `HttpResponse._auto_detect_fun`: try strict decoding of the body
against `ascii`, then `utf-8`, then `cp1252`; the first candidate that
decodes without error is returned through the normalization/alias
table; `none` when all fail. -/
def autoDetectFun (body : List Nat) : Option String :=
  if body.all (fun b => b < 0x80) then resolveEncoding DEFAULT_ENCODING
  else if validUtf8 body then resolveEncoding "utf-8"
  else if body.all cp1252Defined then resolveEncoding "cp1252"
  else none

/-- `HttpResponseBody.declared_encoding` for a response. -/
def bodyDeclaredEncoding (r : HttpResponse) : Option String :=
  htmlBodyDeclaredEncoding r.body

/-- `_headers_declared_encoding` for a response. -/
def respHeadersDeclaredEncoding (r : HttpResponse) : Option String :=
  headersDeclaredEncoding r.headers

/-- The single run of `_body_inferred_encoding`: `html_to_unicode` on
the real Content-Type header with the trial-decoding hook and the
default encoding, giving `(encoding, text)`. -/
def bodyInferredRun (r : HttpResponse) : String × String :=
  htmlToUnicode ((headersGet r.headers "Content-Type").getD "") r.body
    (some autoDetectFun) DEFAULT_ENCODING

/-- Python truthiness filter on an optional string: `None` and the
empty string are falsy for the `or` chain of the cascade. -/
def truthy (o : Option String) : Option String :=
  match o with
  | some s => if s = "" then none else some s
  | none => none

/-- The pure short-circuit prefix of the cascade: explicit encoding,
else header-declared, else body-declared (each skipped when falsy). -/
def cascade123 (r : HttpResponse) : Option String :=
  match truthy r.encodingArg with
  | some e => some e
  | none =>
    match truthy (respHeadersDeclaredEncoding r) with
    | some e => some e
    | none => truthy (bodyDeclaredEncoding r)

/-- Mutable view of a response: the response plus its `_cached_text`
cache, the memo of `_body_inferred_encoding`, and the memo of
`json()`. -/
structure RespState where
  resp : HttpResponse
  cachedText : Option String := none
  inferredMemo : Option String := none
  jsonMemo : Option (Except JsonError JVal) := none

/-- The state of a freshly constructed response. -/
def initState (r : HttpResponse) : RespState := { resp := r }

/-- Access of the `encoding` property: run the cascade; when the first
three sources fail, run (or reuse the memo of) the body-inferred step,
whose trial decoding populates `_cached_text` as a side effect. -/
def encodingAccess (s : RespState) : String × RespState :=
  match cascade123 s.resp with
  | some e => (e, s)
  | none =>
    match s.inferredMemo with
    | some e => (e, s)
    | none =>
      let p := bodyInferredRun s.resp
      (p.1, { s with cachedText := some p.2, inferredMemo := some p.1 })

/-- Access of the `text` property: read `encoding` first (which may
populate the text cache), then return the cached text or decode the
body via `html_to_unicode` under a fake `charset=` header. -/
def textAccess (s : RespState) : String × RespState :=
  let q := encodingAccess s
  match q.2.cachedText with
  | some t => (t, q.2)
  | none =>
    let p := htmlToUnicode ("charset=" ++ q.1) q.2.resp.body none "utf8"
    (p.2, { q.2 with cachedText := some p.2 })

/-- `HttpResponseBody.json`: deserialize the body bytes as JSON. -/
def bodyJson (body : List Nat) : Except JsonError JVal :=
  jsonLoads body

/-- Access of `HttpResponse.json()`: memoized independently of the
text/encoding caches (`memoizemethod_noargs`), delegating to the
body's JSON deserialization. -/
def jsonAccess (s : RespState) : Except JsonError JVal × RespState :=
  match s.jsonMemo with
  | some v => (v, s)
  | none =>
    let v := bodyJson s.resp.body
    (v, { s with jsonMemo := some v })

/-! ## Helper lemmas -/

/-- Every label the normalization/alias table recognizes is mapped to
one of the canonical codec names; in particular never to the empty
string. -/
theorem resolveEncoding_ne_empty {l e : String}
    (h : resolveEncoding l = some e) : e ≠ "" := by
  unfold resolveEncoding at h
  rcases hf : resolveTable.find? (fun kv => kv.1 = normalizeLabel l) with _ | kv
  · rw [hf] at h; exact absurd h (by simp)
  · rw [hf] at h
    injection h with h
    subst h
    have hmem : kv ∈ resolveTable := List.mem_of_find?_eq_some hf
    have hall : ∀ p ∈ resolveTable, p.2 ≠ "" := by decide
    exact hall kv hmem

/-- A header-declared encoding factors through the
normalization/alias table. -/
theorem httpContentTypeEncoding_through_resolve {ct e : String}
    (h : httpContentTypeEncoding ct = some e) :
    ∃ l, resolveEncoding l = some e := by
  unfold httpContentTypeEncoding at h
  rcases hm : scanCharset (lowerChars ct.data) with _ | tok
  · rw [hm] at h; exact absurd h (by simp)
  · rw [hm] at h; exact ⟨String.mk tok, h⟩

/-- A body-declared encoding factors through the normalization/alias
table. -/
theorem htmlBodyDeclaredEncoding_through_resolve {body : List Nat} {e : String}
    (h : htmlBodyDeclaredEncoding body = some e) :
    ∃ l, resolveEncoding l = some e := by
  unfold htmlBodyDeclaredEncoding at h
  rcases hm : scanBodyDecl (lowerChars ((body.take 4096).map Char.ofNat)) with _ | tok
  · rw [hm] at h; exact absurd h (by simp)
  · rw [hm] at h; exact ⟨String.mk tok, h⟩

/-- A trial-decoding (auto-detected) encoding factors through the
normalization/alias table. -/
theorem autoDetectFun_through_resolve {body : List Nat} {e : String}
    (h : autoDetectFun body = some e) :
    ∃ l, resolveEncoding l = some e := by
  unfold autoDetectFun at h
  split_ifs at h
  · exact ⟨DEFAULT_ENCODING, h⟩
  · exact ⟨"utf-8", h⟩
  · exact ⟨"cp1252", h⟩

/-- A header-declared encoding is never the empty string. -/
theorem httpContentTypeEncoding_ne_empty {ct e : String}
    (h : httpContentTypeEncoding ct = some e) : e ≠ "" := by
  obtain ⟨l, hl⟩ := httpContentTypeEncoding_through_resolve h
  exact resolveEncoding_ne_empty hl

/-- A body-declared encoding is never the empty string. -/
theorem htmlBodyDeclaredEncoding_ne_empty {body : List Nat} {e : String}
    (h : htmlBodyDeclaredEncoding body = some e) : e ≠ "" := by
  obtain ⟨l, hl⟩ := htmlBodyDeclaredEncoding_through_resolve h
  exact resolveEncoding_ne_empty hl

/-- `truthy` keeps a nonempty label. -/
theorem truthy_some {e : String} (h : e ≠ "") : truthy (some e) = some e := by
  simp [truthy, h]

/-- The cascade prefix under an explicit (nonempty) encoding. -/
theorem cascade123_explicit {r : HttpResponse} {e : String}
    (h : r.encodingArg = some e) (hne : e ≠ "") : cascade123 r = some e := by
  unfold cascade123
  rw [h, truthy_some hne]

/-- The cascade prefix when the explicit source is absent and the
header declares an encoding. -/
theorem cascade123_header {r : HttpResponse} {e : String}
    (h0 : r.encodingArg = none) (h : respHeadersDeclaredEncoding r = some e) :
    cascade123 r = some e := by
  have hne : e ≠ "" := httpContentTypeEncoding_ne_empty h
  unfold cascade123
  rw [h0, h, truthy_some hne]
  rfl

/-- The cascade prefix when only the body declares an encoding. -/
theorem cascade123_body {r : HttpResponse} {e : String}
    (h0 : r.encodingArg = none) (h1 : respHeadersDeclaredEncoding r = none)
    (h : bodyDeclaredEncoding r = some e) : cascade123 r = some e := by
  have hne : e ≠ "" := htmlBodyDeclaredEncoding_ne_empty h
  unfold cascade123
  rw [h0, h1, h, truthy_some hne]
  rfl

/-- The cascade prefix yields nothing when all three declared sources
are absent. -/
theorem cascade123_none {r : HttpResponse}
    (h0 : r.encodingArg = none) (h1 : respHeadersDeclaredEncoding r = none)
    (h2 : bodyDeclaredEncoding r = none) : cascade123 r = none := by
  unfold cascade123
  rw [h0, h1, h2]
  rfl

/-- `encoding` access when the cascade prefix succeeds: pure, no state
change. -/
theorem encodingAccess_of_cascade_some {s : RespState} {e : String}
    (h : cascade123 s.resp = some e) : encodingAccess s = (e, s) := by
  unfold encodingAccess
  rw [h]

/-- `encoding` access on a fresh state when the cascade prefix fails:
runs the inferred step and populates both caches. -/
theorem encodingAccess_of_cascade_none {r : HttpResponse}
    (h : cascade123 r = none) :
    encodingAccess (initState r) =
      ((bodyInferredRun r).1,
        { resp := r, cachedText := some (bodyInferredRun r).2,
          inferredMemo := some (bodyInferredRun r).1 }) := by
  unfold encodingAccess initState
  rw [h]

/-- `encoding` access never changes the immutable response fields. -/
theorem encodingAccess_resp (s : RespState) : (encodingAccess s).2.resp = s.resp := by
  unfold encodingAccess
  cases hc : cascade123 s.resp with
  | some e => rfl
  | none =>
    cases hm : s.inferredMemo with
    | some m => rfl
    | none => rfl

/-- `encoding` access never touches the `json()` memo. -/
theorem encodingAccess_jsonMemo (s : RespState) :
    (encodingAccess s).2.jsonMemo = s.jsonMemo := by
  unfold encodingAccess
  cases hc : cascade123 s.resp with
  | some e => rfl
  | none =>
    cases hm : s.inferredMemo with
    | some m => rfl
    | none => rfl

/-- `text` access never changes the immutable response fields. -/
theorem textAccess_resp (s : RespState) : (textAccess s).2.resp = s.resp := by
  unfold textAccess
  cases hct : (encodingAccess s).2.cachedText with
  | some t => simpa [hct] using encodingAccess_resp s
  | none => simpa [hct] using encodingAccess_resp s

/-- `text` access never touches the `json()` memo. -/
theorem textAccess_jsonMemo (s : RespState) :
    (textAccess s).2.jsonMemo = s.jsonMemo := by
  unfold textAccess
  cases hct : (encodingAccess s).2.cachedText with
  | some t => simpa [hct] using encodingAccess_jsonMemo s
  | none => simpa [hct] using encodingAccess_jsonMemo s

/-- `json()` access never touches the text or inferred-encoding
caches, and its result depends only on the memo and the body. -/
theorem jsonAccess_caches (s : RespState) :
    (jsonAccess s).2.cachedText = s.cachedText
      ∧ (jsonAccess s).2.inferredMemo = s.inferredMemo := by
  unfold jsonAccess
  cases hm : s.jsonMemo with
  | some v => exact ⟨rfl, rfl⟩
  | none => exact ⟨rfl, rfl⟩

/-- `json()` results agree on states with the same memo and body. -/
theorem jsonAccess_congr {s s2 : RespState}
    (hm : s2.jsonMemo = s.jsonMemo) (hb : s2.resp.body = s.resp.body) :
    (jsonAccess s2).1 = (jsonAccess s).1 := by
  unfold jsonAccess
  rw [hm, hb]
  cases s.jsonMemo with
  | some v => rfl
  | none => rfl

/-! ## UTF-8 decoding lemmas -/

/-- An ASCII byte passes through the decoder unchanged. -/
theorem utf8Step_ascii {x : Nat} (hx : x < 0x80) :
    utf8Step .start x = ([Char.ofNat x], .start) := by
  simp [utf8Step, utf8Classify, hx]

/-- A byte that can never start or continue a valid sequence (a stray
continuation byte, an overlong lead `0xC0`/`0xC1`, or a lead above
`0xF4`) is one maximal invalid subpart by itself. -/
theorem utf8Classify_invalid {b : Nat}
    (hb : (0x80 ≤ b ∧ b ≤ 0xC1) ∨ 0xF5 ≤ b) :
    utf8Classify b = ([repl], .start) := by
  unfold utf8Classify
  rw [if_neg (by omega), if_neg (by omega), if_neg (by omega), if_neg (by omega)]

/-- Replacement-mode decoding maps an all-ASCII prefix to itself. -/
theorem utf8Run_start_ascii (p t : List Nat) (hp : ∀ x ∈ p, x < 0x80) :
    utf8Run .start (p ++ t) = p.map Char.ofNat ++ utf8Run .start t := by
  induction p with
  | nil => simp
  | cons x xs ih =>
    have hx : x < 0x80 := hp x (List.mem_cons_self _ _)
    have hstep := utf8Step_ascii hx
    simp only [List.cons_append, utf8Run, hstep, List.map_cons]
    rw [show xs.append t = xs ++ t from rfl,
      ih (fun y hy => hp y (List.mem_cons_of_mem _ hy))]
    rfl

/-- Replacement-mode decoding turns a single invalid byte into one
replacement character and continues with the remaining input. -/
theorem utf8Run_invalid_single {b : Nat} (t : List Nat)
    (hb : (0x80 ≤ b ∧ b ≤ 0xC1) ∨ 0xF5 ≤ b) :
    utf8Run .start (b :: t) = repl :: utf8Run .start t := by
  simp only [utf8Run, utf8Step, utf8Classify_invalid hb]
  rfl

/-! ## Claim theorems -/

/-- C5 (counterexample): the claim's residual rule — outside the
root-vs-pathless special case two Urls are equal exactly when their
normalized string forms match — fails: `_Url.__eq__` returns `True`
for two URLs with different hosts whose paths are both `"/"`, although
their string forms differ and neither is the path-less form of the
other. -/
theorem claim5_counterexample :
    urlEq "https://a.example/" "https://b.example/" = true
      ∧ ("https://a.example/" : String) ≠ "https://b.example/"
      ∧ ("https://a.example/" : String) ≠ "https://b.example"
      ∧ ("https://b.example/" : String) ≠ "https://a.example" := by
  decide

/-- C5 (amended): `Url("https://h") == Url("https://h/")` and
`Url("https://h/a") != Url("https://h/a/")` hold; in general equality
holds exactly when either both normalized paths are `"/"` (regardless
of the other components) or the normalized string forms match. -/
theorem claim5 :
    (∀ a b : String,
      urlEq a b = true ↔ (urlPath a = "/" ∧ urlPath b = "/") ∨ a = b)
      ∧ urlEq "https://h" "https://h/" = true
      ∧ urlEq "https://h/a" "https://h/a/" = false := by
  refine ⟨?_, by decide, by decide⟩
  intro a b
  unfold urlEq
  by_cases h1 : urlPath a = "/"
  · by_cases h2 : urlPath a = urlPath b
    · simp only [if_pos h1, if_pos h2]
      constructor
      · intro _; exact Or.inl ⟨h1, h2.symm.trans h1⟩
      · intro _; trivial
    · simp only [if_pos h1, if_neg h2, decide_eq_true_eq]
      constructor
      · intro hab; exact Or.inr hab
      · intro hor
        rcases hor with ⟨_, hb⟩ | hab
        · exact absurd (h1.trans hb.symm) h2
        · exact hab
  · simp only [if_neg h1, decide_eq_true_eq]
    constructor
    · intro hab; exact Or.inr hab
    · intro hor
      rcases hor with ⟨ha, _⟩ | hab
      · exact absurd ha h1
      · exact hab

/-- C6: whenever both normalized paths are `"/"`, `_Url.__eq__`
returns `True` — even for different schemes or hosts — because the
root-path special case compares only the paths before returning. -/
theorem claim6 (a b : String) (ha : urlPath a = "/") (hb : urlPath b = "/") :
    urlEq a b = true := by
  unfold urlEq
  rw [if_pos ha, if_pos (ha.trans hb.symm)]

/-- C6 witness: two URLs with different schemes, hosts and ports whose
paths are both `"/"` compare equal. -/
theorem claim6_witness :
    urlPath "http://x.example/" = "/"
      ∧ urlPath "https://y.example:8080/" = "/"
      ∧ urlEq "http://x.example/" "https://y.example:8080/" = true :=
  ⟨by decide, by decide, claim6 _ _ (by decide) (by decide)⟩

/-- C8: `from_bytes_dict` raises a value error identifying the
offending type for any mapping value that is neither bytes, text, nor
`None`, nor a list/tuple of those — both in the single-value and in
the list-value form, and in particular for the integer examples
`{b"Content-Length": [316]}` and `{b"Content-Length": 316}`. -/
theorem claim8 :
    (∀ (k t enc : String),
        fromBytesDict [(.tstr k, .single (.other t))] enc
          = .error (.expectingStrOrBytes t))
      ∧ (∀ (k t enc : String),
        fromBytesDict [(.tstr k, .multi [.other t])] enc
          = .error (.expectingStrOrBytes t))
      ∧ fromBytesDict
          [(.bstr ("Content-Length".data.map Char.toNat), .multi [.other "int"])]
          "utf-8" = .error (.expectingStrOrBytes "int")
      ∧ fromBytesDict
          [(.bstr ("Content-Length".data.map Char.toNat), .single (.other "int"))]
          "utf-8" = .error (.expectingStrOrBytes "int") := by
  refine ⟨?_, ?_, by rfl, by rfl⟩ <;> (intro k t enc; rfl)

/-- C9: `from_bytes_dict` decodes every bytes key and value with the
given encoding, passes `None` values through unchanged, turns
list/tuple values into multiple entries under the same key preserving
order, and the converted `{b"Content-Length": [b"316"]}` container
yields `"316"` under case-insensitive `get("content-length")`. -/
theorem claim9 :
    (∀ (enc : String) (kb vb : List Nat) (k v : String),
        decodeBytesStrict enc kb = .ok k → decodeBytesStrict enc vb = .ok v →
        fromBytesDict [(.bstr kb, .single (.bstr vb))] enc
          = .ok [(some k, some v)])
      ∧ (∀ (enc : String) (kb v1 v2 : List Nat) (k s1 s2 : String),
        decodeBytesStrict enc kb = .ok k → decodeBytesStrict enc v1 = .ok s1 →
        decodeBytesStrict enc v2 = .ok s2 →
        fromBytesDict [(.bstr kb, .multi [.bstr v1, .bstr v2])] enc
          = .ok [(some k, some s1), (some k, some s2)])
      ∧ (∀ (enc k : String),
        fromBytesDict [(.tstr k, .single .nul)] enc = .ok [(some k, none)])
      ∧ ((fromBytesDict
            [(.bstr ("Content-Length".data.map Char.toNat),
              .multi [.bstr ("316".data.map Char.toNat)])] "utf-8").map
          (fun ps => pairsGet ps "content-length")
          = .ok (some (some "316"))) := by
  refine ⟨?_, ?_, ?_, by rfl⟩
  · intro enc kb vb k v hk hv
    simp [fromBytesDict, normVal, hk, hv]
  · intro enc kb v1 v2 k s1 s2 hk h1 h2
    simp [fromBytesDict, normMulti, normVal, hk, h1, h2]
  · intro enc k
    rfl

/-- C9 witness: concrete single-value and ordered multi-value
conversions under the default encoding. -/
theorem claim9_witness :
    fromBytesDict
        [(.bstr ("Content-Type".data.map Char.toNat),
          .single (.bstr ("text/html".data.map Char.toNat)))] "utf-8"
      = .ok [(some "Content-Type", some "text/html")]
      ∧ fromBytesDict
          [(.bstr ("Content-Encoding".data.map Char.toNat),
            .multi [.bstr ("gzip".data.map Char.toNat),
              .bstr ("br".data.map Char.toNat)])] "utf-8"
        = .ok [(some "Content-Encoding", some "gzip"),
            (some "Content-Encoding", some "br")] :=
  ⟨claim9.1 "utf-8" _ _ "Content-Type" "text/html" rfl rfl,
   claim9.2.1 "utf-8" _ _ _ "Content-Encoding" "gzip" "br" rfl rfl rfl⟩

/-- The body bytes of the well-formed JSON example `b'\x7b"k":1\x7d'`. -/
def jsonBodyOkExample : List Nat := "\x7b\"k\":1\x7d".data.map Char.toNat

/-- The body bytes of the malformed JSON example `b'not json'`. -/
def jsonBodyBadExample : List Nat := "not json".data.map Char.toNat

/-- C10: `json()` deserializes the body bytes as JSON — returning the
structure for `b'\x7b"k":1\x7d'` and a decode error with position
information for `b'not json'` — and its memo is independent of the
text/encoding caches: neither access disturbs the other's cache, and
repeated or interleaved access returns the same result. -/
theorem claim10 :
    ((jsonAccess (initState { url := "https://example.com", body := jsonBodyOkExample })).1
      = .ok (.jobj [("k", .jnum 1)]))
      ∧ ((jsonAccess (initState { url := "https://example.com", body := jsonBodyBadExample })).1
        = .error ⟨"Expecting value", 0⟩)
      ∧ (∀ s : RespState,
          (jsonAccess s).2.cachedText = s.cachedText
          ∧ (jsonAccess s).2.inferredMemo = s.inferredMemo
          ∧ (textAccess s).2.jsonMemo = s.jsonMemo
          ∧ (encodingAccess s).2.jsonMemo = s.jsonMemo
          ∧ (jsonAccess ((jsonAccess s).2)).1 = (jsonAccess s).1
          ∧ (jsonAccess ((textAccess s).2)).1 = (jsonAccess s).1)
      ∧ (∀ r : HttpResponse, (jsonAccess (initState r)).1 = bodyJson r.body) := by
  refine ⟨by rfl, by rfl, ?_, ?_⟩
  · intro s
    refine ⟨(jsonAccess_caches s).1, (jsonAccess_caches s).2,
      textAccess_jsonMemo s, encodingAccess_jsonMemo s, ?_, ?_⟩
    · unfold jsonAccess
      cases hm : s.jsonMemo with
      | some v => simp [hm]
      | none => simp [hm]
    · exact jsonAccess_congr (textAccess_jsonMemo s)
        (by rw [textAccess_resp s])
  · intro r
    rfl

/-- Witness response: explicit `utf-8` with a conflicting
`iso-8859-1` header. -/
def respExplicitVsHeader : HttpResponse :=
  { url := "http://www.example.com"
    body := [0xC2, 0xA3]
    headers := [("Content-type", "text/html; charset=iso-8859-1")]
    encodingArg := some "utf-8" }

/-- Witness response: no explicit encoding, `gb2312` header. -/
def respGb2312Header : HttpResponse :=
  { url := "http://example.com"
    body := []
    headers := [("Content-type", "text/html; charset=gb2312")] }

/-- Witness response: unrecognized header charset over a body with an
`iso-8859-1` meta declaration. -/
def respGarbageHeaderMetaBody : HttpResponse :=
  { url := "http://example.com"
    body := "<meta charset=iso-8859-1>".data.map Char.toNat
    headers := [("Content-type", "text/html; charset=UNKNOWN")] }

/-- Witness response: unrecognized header charset over a plain ASCII
body with no embedded declaration. -/
def respGarbageHeaderPlainBody : HttpResponse :=
  { url := "http://example.com"
    body := [72, 105]
    headers := [("Content-type", "text/html; charset=UNKNOWN")] }

/-- Counterexample response: explicit `iso-8859-1`. -/
def respExplicitLegacyLabel : HttpResponse :=
  { url := "http://www.example.com"
    body := []
    encodingArg := some "iso-8859-1" }

/-- Witness response: garbage header charset over a body with a
`gb2312` meta declaration. -/
def respBogusHeaderGbBody : HttpResponse :=
  { url := "http://example.com"
    body := "<meta charset=gb2312>".data.map Char.toNat
    headers := [("Content-Type", "text/html; charset=BOGUS")] }

/-- Witness response: explicit `latin1`. -/
def respExplicitLatin1 : HttpResponse :=
  { url := "http://example.com"
    body := []
    encodingArg := some "latin1" }

/-- Witness response: the body `b"\x81"`, which no trial-decoding
candidate accepts. -/
def respUndecodableByte : HttpResponse :=
  { url := "http://example.com"
    body := [0x81] }

/-- C1: the resolved encoding follows the four-step precedence with
short-circuit at the first successful source — an explicit encoding is
used verbatim over any headers; otherwise a recognized header-declared
charset; otherwise a body-declared charset; otherwise the
body-inferred result — and an unrecognized garbage header charset
yields nothing, so resolution falls through to the body sources. -/
theorem claim1 (r : HttpResponse) :
    (∀ e, r.encodingArg = some e → e ≠ "" →
      (encodingAccess (initState r)).1 = e)
      ∧ (r.encodingArg = none → ∀ e, respHeadersDeclaredEncoding r = some e →
        (encodingAccess (initState r)).1 = e)
      ∧ (r.encodingArg = none → respHeadersDeclaredEncoding r = none →
        ∀ e, bodyDeclaredEncoding r = some e →
        (encodingAccess (initState r)).1 = e)
      ∧ (r.encodingArg = none → respHeadersDeclaredEncoding r = none →
        bodyDeclaredEncoding r = none →
        (encodingAccess (initState r)).1 = (bodyInferredRun r).1)
      ∧ httpContentTypeEncoding "text/html; charset=UNKNOWN" = none := by
  refine ⟨?_, ?_, ?_, ?_, by decide⟩
  · intro e he hne
    rw [encodingAccess_of_cascade_some (cascade123_explicit he hne)]
  · intro h0 e hh
    rw [encodingAccess_of_cascade_some (cascade123_header h0 hh)]
  · intro h0 h1 e hb
    rw [encodingAccess_of_cascade_some (cascade123_body h0 h1 hb)]
  · intro h0 h1 h2
    rw [encodingAccess_of_cascade_none (cascade123_none h0 h1 h2)]

/-- C1 witness: explicit `utf-8` beats a conflicting header; a
`gb2312` header resolves; an unrecognized header charset falls through
to a body-declared `iso-8859-1` meta tag; with no declared source the
result is the body-inferred one. -/
theorem claim1_witness :
    (encodingAccess (initState respExplicitVsHeader)).1 = "utf-8"
      ∧ (encodingAccess (initState respGb2312Header)).1 = "gb18030"
      ∧ (encodingAccess (initState respGarbageHeaderMetaBody)).1 = "cp1252"
      ∧ (encodingAccess (initState respGarbageHeaderPlainBody)).1
        = (bodyInferredRun respGarbageHeaderPlainBody).1 :=
  ⟨(claim1 _).1 "utf-8" rfl (by decide),
   (claim1 _).2.1 rfl "gb18030" (by decide),
   (claim1 _).2.2.1 rfl (by decide) "cp1252" (by decide),
   (claim1 _).2.2.2.1 rfl (by decide) (by decide)⟩

/-- C2 (counterexample): the explicit encoding supplied at
construction is *not* passed through the normalization/alias table:
for an explicit `iso-8859-1` the resolver returns `iso-8859-1`
verbatim although the table maps that label to `cp1252`. -/
theorem claim2_counterexample :
    (encodingAccess (initState respExplicitLegacyLabel)).1 = "iso-8859-1"
      ∧ resolveEncoding "iso-8859-1" = some "cp1252"
      ∧ ("iso-8859-1" : String) ≠ "cp1252" := by
  decide

/-- C2 (amended): every label returned by the header-declared,
body-declared, or trial-decoding source factors through the
normalization/alias table — `gb2312` resolves to its superset codec
`gb18030`, `iso-8859-1` to its vendor-extended superset `cp1252`, an
unrecognized label to nothing (so the cascade continues to the body
sources) — but the explicit encoding supplied at construction is
returned verbatim, without normalization. -/
theorem claim2 :
    (∀ ct e, httpContentTypeEncoding ct = some e →
      ∃ l, resolveEncoding l = some e)
      ∧ (∀ (body : List Nat) (e : String), htmlBodyDeclaredEncoding body = some e →
        ∃ l, resolveEncoding l = some e)
      ∧ (∀ (body : List Nat) (e : String), autoDetectFun body = some e →
        ∃ l, resolveEncoding l = some e)
      ∧ resolveEncoding "gb2312" = some "gb18030"
      ∧ resolveEncoding "iso-8859-1" = some "cp1252"
      ∧ resolveEncoding "UNKNOWN" = none
      ∧ (∀ (r : HttpResponse) (e : String), r.encodingArg = none →
        respHeadersDeclaredEncoding r = none → bodyDeclaredEncoding r = some e →
        (encodingAccess (initState r)).1 = e)
      ∧ (∀ (r : HttpResponse) (e : String), r.encodingArg = some e → e ≠ "" →
        (encodingAccess (initState r)).1 = e) := by
  refine ⟨?_, ?_, ?_, by decide, by decide, by decide, ?_, ?_⟩
  · intro ct e h; exact httpContentTypeEncoding_through_resolve h
  · intro body e h; exact htmlBodyDeclaredEncoding_through_resolve h
  · intro body e h; exact autoDetectFun_through_resolve h
  · intro r e h0 h1 hb
    rw [encodingAccess_of_cascade_some (cascade123_body h0 h1 hb)]
  · intro r e he hne
    rw [encodingAccess_of_cascade_some (cascade123_explicit he hne)]

/-- C2 witness: the three cascade sources instantiated on concrete
inputs, the fallthrough on a garbage header, and the verbatim explicit
label. -/
theorem claim2_witness :
    (∃ l, resolveEncoding l = some "gb18030")
      ∧ (∃ l, resolveEncoding l = some "cp1252")
      ∧ (∃ l, resolveEncoding l = some "utf-8")
      ∧ (encodingAccess (initState respBogusHeaderGbBody)).1 = "gb18030"
      ∧ (encodingAccess (initState respExplicitLatin1)).1 = "latin1" :=
  ⟨claim2.1 "text/html; charset=gb2312" "gb18030" (by decide),
   claim2.2.1 ("<meta charset=iso-8859-1>".data.map Char.toNat) "cp1252" (by decide),
   claim2.2.2.1 [0xC2, 0xA3] "utf-8" (by decide),
   claim2.2.2.2.2.2.2.1 _ "gb18030" rfl (by decide) (by decide),
   claim2.2.2.2.2.2.2.2 _ "latin1" rfl (by decide)⟩


/-- C3: on two identical fresh responses, accessing `encoding` then
`text` on one and `text` then `encoding` on the other yields the same
final text and the same final encoding; both accessors are idempotent,
so the text-cache population performed as a side effect of the
inferred-encoding step never causes a second, different decoding
pass. -/
theorem claim3 (r : HttpResponse) :
    ((encodingAccess (initState r)).1
      = (encodingAccess ((textAccess (initState r)).2)).1)
      ∧ ((textAccess ((encodingAccess (initState r)).2)).1
        = (textAccess (initState r)).1)
      ∧ ((textAccess ((textAccess (initState r)).2)).1
        = (textAccess (initState r)).1)
      ∧ ((encodingAccess ((encodingAccess (initState r)).2)).1
        = (encodingAccess (initState r)).1) := by
  cases hc : cascade123 r with
  | some e =>
    cases hct : (htmlToUnicode ("charset=" ++ e) r.body none "utf8").2 with
    | mk => simp [textAccess, encodingAccess, initState, hc]
  | none =>
    simp [textAccess, encodingAccess, initState, hc]

/-- C7: the body-inferred trial decoding tries `ascii`, then `utf-8`,
then `cp1252`, selecting the first candidate that strictly decodes the
whole body (returned through the normalization/alias table), and when
every candidate fails the inferred step falls back to the declared
default encoding. -/
theorem claim7 :
    (∀ body : List Nat,
      (body.all (fun b => b < 0x80) = true →
        autoDetectFun body = resolveEncoding DEFAULT_ENCODING)
      ∧ (body.all (fun b => b < 0x80) = false → validUtf8 body = true →
        autoDetectFun body = resolveEncoding "utf-8")
      ∧ (body.all (fun b => b < 0x80) = false → validUtf8 body = false →
        body.all cp1252Defined = true →
        autoDetectFun body = resolveEncoding "cp1252")
      ∧ (body.all (fun b => b < 0x80) = false → validUtf8 body = false →
        body.all cp1252Defined = false → autoDetectFun body = none))
      ∧ (∀ r : HttpResponse, r.encodingArg = none →
        respHeadersDeclaredEncoding r = none →
        htmlBodyDeclaredEncoding r.body = none →
        readBom r.body = none →
        autoDetectFun r.body = none →
        (encodingAccess (initState r)).1 = DEFAULT_ENCODING) := by
  constructor
  · intro body
    refine ⟨?_, ?_, ?_, ?_⟩
    · intro h1; simp [autoDetectFun, h1]
    · intro h1 h2; simp [autoDetectFun, h1, h2]
    · intro h1 h2 h3; simp [autoDetectFun, h1, h2, h3]
    · intro h1 h2 h3; simp [autoDetectFun, h1, h2, h3]
  · intro r h0 h1 h2 h3 h4
    rw [encodingAccess_of_cascade_none (cascade123_none h0 h1 h2)]
    have h1b : httpContentTypeEncoding
        ((headersGet r.headers "Content-Type").getD "") = none := h1
    simp [bodyInferredRun, htmlToUnicode, h1b, h2, h3, h4]

/-- C7 witness: an all-ASCII body selects `ascii` (normalized to
`cp1252`), a UTF-8 body selects `utf-8`, a cp1252-only body selects
`cp1252`, and the byte `0x81` — invalid in all three candidates —
falls back to the default `ascii`. -/
theorem claim7_witness :
    autoDetectFun [104, 105] = some "cp1252"
      ∧ autoDetectFun [0xC2, 0xA3] = some "utf-8"
      ∧ autoDetectFun [0x9C] = some "cp1252"
      ∧ autoDetectFun [0x81] = none
      ∧ (encodingAccess (initState respUndecodableByte)).1 = DEFAULT_ENCODING :=
  ⟨((claim7.1 [104, 105]).1 (by decide)).trans (by decide),
   ((claim7.1 [0xC2, 0xA3]).2.1 (by decide) (by decide)).trans (by decide),
   ((claim7.1 [0x9C]).2.2.1 (by decide) (by decide) (by decide)).trans (by decide),
   (claim7.1 [0x81]).2.2.2 (by decide) (by decide) (by decide),
   claim7.2 _ rfl (by decide) (by decide) (by decide) (by decide)⟩

/-- A response with explicit encoding (the shape used by the decoding
discipline claims): url, headers, body bytes, and an explicit
encoding label. -/
def mkExplicitResp (url : String) (hs : List (String × String))
    (body : List Nat) (enc : String) : HttpResponse :=
  { url := url, body := body, headers := hs, encodingArg := some enc }

/-- The three UTF-8 BOM bytes never start a byte list headed by an
ASCII byte or by a byte that is invalid on its own. -/
theorem bomPrefix_false {p s : List Nat} {b : Nat}
    (hp : ∀ x ∈ p, x < 0x80)
    (hb : (0x80 ≤ b ∧ b ≤ 0xC1) ∨ 0xF5 ≤ b) :
    List.isPrefixOf [0xEF, 0xBB, 0xBF] (p ++ b :: s) = false := by
  have hne : ∀ (y : Nat) (t : List Nat), ¬ (0xEF = y) →
      List.isPrefixOf [0xEF, 0xBB, 0xBF] (y :: t) = false := by
    intro y t hy
    simp [List.isPrefixOf, beq_iff_eq, hy]
  cases p with
  | nil => exact hne b _ (by omega)
  | cons x xs =>
    have hx : x < 0x80 := hp x (List.mem_cons_self _ _)
    simpa [List.cons_append] using hne x (xs ++ b :: s) (by omega)

/-- `decodeReplace` dispatches the `utf-8` label to the UTF-8
automaton. -/
theorem decodeReplace_utf8 (body : List Nat) :
    decodeReplace "utf-8" body = String.mk (utf8DecodeReplace body) := rfl

/-- `decodeReplace` dispatches the `cp1252` label to the cp1252
byte map. -/
theorem decodeReplace_cp1252 (body : List Nat) :
    decodeReplace "cp1252" body = String.mk (cp1252DecodeReplace body) := rfl

/-- C4: decoding is total and replaces invalid byte sequences with the
replacement character in place, preserving the surrounding valid text:
under an explicit `utf-8` encoding a body `p ++ [b] ++ s` with ASCII
`p`, `s` and a byte `b` that is invalid on its own decodes to
`p ++ "\uFFFD" ++ s`; under an explicit `cp1252` encoding a body whose
middle byte is one of the five unassigned cp1252 bytes decodes to the
surrounding cp1252 text around one replacement character. -/
theorem claim4 :
    (∀ (url : String) (hs : List (String × String)) (p s : List Nat) (b : Nat),
      (∀ x ∈ p, x < 0x80) → (∀ x ∈ s, x < 0x80) →
      ((0x80 ≤ b ∧ b ≤ 0xC1) ∨ 0xF5 ≤ b) →
      (textAccess (initState (mkExplicitResp url hs (p ++ b :: s) "utf-8"))).1
        = String.mk (p.map Char.ofNat ++ repl :: s.map Char.ofNat))
      ∧ (∀ (url : String) (hs : List (String × String)) (p s : List Nat) (b : Nat),
      (b = 0x81 ∨ b = 0x8D ∨ b = 0x8F ∨ b = 0x90 ∨ b = 0x9D) →
      (textAccess (initState (mkExplicitResp url hs (p ++ b :: s) "cp1252"))).1
        = String.mk (cp1252DecodeReplace p ++ repl :: cp1252DecodeReplace s)) := by
  constructor
  · intro url hs p s b hp hsa hb
    have hc : cascade123 (mkExplicitResp url hs (p ++ b :: s) "utf-8")
        = some "utf-8" := cascade123_explicit rfl (by decide)
    have henc := encodingAccess_of_cascade_some
      (s := initState (mkExplicitResp url hs (p ++ b :: s) "utf-8")) hc
    have hct : httpContentTypeEncoding "charset=utf-8" = some "utf-8" := by decide
    have hnb := bomPrefix_false (s := s) hp hb
    have hsrun : utf8Run .start s = s.map Char.ofNat := by
      simpa [utf8Run, utf8Finish] using utf8Run_start_ascii s [] hsa
    have hdec : (htmlToUnicode "charset=utf-8" (p ++ b :: s) none "utf8").2
        = String.mk (p.map Char.ofNat ++ repl :: s.map Char.ofNat) := by
      simp only [htmlToUnicode, hct]
      rw [if_neg (by decide), if_pos trivial, if_neg (by simp [hnb])]
      rw [decodeReplace_utf8]
      unfold utf8DecodeReplace
      rw [utf8Run_start_ascii p (b :: s) hp, utf8Run_invalid_single s hb, hsrun]
    simp only [textAccess]
    rw [henc]
    simp only [initState, mkExplicitResp]
    rw [show ("charset=" ++ "utf-8" : String) = "charset=utf-8" from rfl]
    exact hdec
  · intro url hs p s b hb
    have hc : cascade123 (mkExplicitResp url hs (p ++ b :: s) "cp1252")
        = some "cp1252" := cascade123_explicit rfl (by decide)
    have henc := encodingAccess_of_cascade_some
      (s := initState (mkExplicitResp url hs (p ++ b :: s) "cp1252")) hc
    have hct : httpContentTypeEncoding "charset=cp1252" = some "cp1252" := by
      decide
    have hdec : (htmlToUnicode "charset=cp1252" (p ++ b :: s) none "utf8").2
        = String.mk (cp1252DecodeReplace p ++ repl :: cp1252DecodeReplace s) := by
      simp only [htmlToUnicode, hct]
      rw [if_neg (by decide), if_neg (by decide)]
      rw [decodeReplace_cp1252]
      rcases hb with rfl | rfl | rfl | rfl | rfl <;>
        simp [cp1252DecodeReplace, cp1252Hi, repl]
    simp only [textAccess]
    rw [henc]
    simp only [initState, mkExplicitResp]
    rw [show ("charset=" ++ "cp1252" : String) = "charset=cp1252" from rfl]
    exact hdec

/-- C4 witness: `b"PREFIX\x80SUFFIX"` under explicit `utf-8` decodes
to `PREFIX`, one replacement character, `SUFFIX`; `b"A\x81B"` under
explicit `cp1252` decodes to `A`, one replacement character, `B`. -/
theorem claim4_witness :
    (textAccess (initState (mkExplicitResp "http://www.example.com" []
      ("PREFIX".data.map Char.toNat ++ 0x80 :: "SUFFIX".data.map Char.toNat)
      "utf-8"))).1 = "PREFIX\uFFFDSUFFIX"
      ∧ (textAccess (initState (mkExplicitResp "http://www.example.com" []
        ([65] ++ 0x81 :: [66]) "cp1252"))).1 = "A\uFFFDB" :=
  ⟨(claim4.1 "http://www.example.com" [] ("PREFIX".data.map Char.toNat)
      ("SUFFIX".data.map Char.toNat) 0x80 (by decide) (by decide)
      (by decide)).trans (by decide),
   (claim4.2 "http://www.example.com" [] [65] [66] 0x81
      (by decide)).trans (by decide)⟩

end WebPoet
